import Mathlib

/-!
Verification of the `arn-rs` naive ARN parser and formatter
(`src/naive.rs`).

Strings are modelled as `List Char`; Rust's `str::splitn(6, ':')` is
modelled by `Arn.splitn`, bounded-count splitting that returns at most
`n` pieces, the last piece absorbing the rest of the input.  The parser
consumes the pieces of `splitn 6 ':' s` in order, exactly as the Rust
iterator does, and the formatter joins the five fields with colons after
the literal prefix, rendering absent optional fields as empty.
-/

namespace Arn

/-- Split off the text before the first occurrence of `sep`:
`none` when `sep` does not occur, otherwise the pair of the text before
the first `sep` and the text after it. -/
def splitFirst (sep : Char) : List Char → Option (List Char × List Char)
  | [] => none
  | c :: cs =>
    if c = sep then some ([], cs)
    else
      match splitFirst sep cs with
      | none => none
      | some (l, r) => some (c :: l, r)

/-- Rust's `str::splitn (n, sep)`: at most `n` pieces; the `n`-th piece,
when reached, absorbs the rest of the string, separators included.
For `n ≥ 1` an empty input yields the single piece `[]`. -/
def splitn : Nat → Char → List Char → List (List Char)
  | 0, _, _ => []
  | 1, _, s => [s]
  | n + 2, sep, s =>
    match splitFirst sep s with
    | none => [s]
    | some (l, r) => l :: splitn (n + 1) sep r

/-- The parsed ARN record of `src/naive.rs` (`NaiveArn`): two required
fields, two optional fields, and the required trailing resource. -/
structure NaiveArn where
  partition : List Char
  service : List Char
  region : Option (List Char)
  account_id : Option (List Char)
  resource : List Char
deriving DecidableEq, Repr

/-- The error enumeration `ParseNaiveArnError` of `src/naive.rs`. -/
inductive ParseNaiveArnError where
  | NotEnoughElements
  | MissingPrefix
  | MissingPartition
  | MissingService
  | MissingResource
deriving DecidableEq, Repr

/-- The body of `NaiveArn::parse` of `src/naive.rs`, consuming the
pieces yielded by the `splitn` iterator in order.  The first piece must
be the literal `arn`; `partition` and `service` must be present and
non-empty; `region` and `account_id` must be present, an empty piece
binding `none`; `resource` must be present and non-empty.  A missing
piece is `NotEnoughElements` (for the first piece, `MissingPrefix`,
matching the Rust comparison of `next()` against `Some("arn")`). -/
def parseParts : List (List Char) → Except ParseNaiveArnError NaiveArn
  | [] => Except.error ParseNaiveArnError.MissingPrefix
  | p0 :: rest0 =>
    if p0 ≠ "arn".data then Except.error ParseNaiveArnError.MissingPrefix
    else
      match rest0 with
      | [] => Except.error ParseNaiveArnError.NotEnoughElements
      | p1 :: rest1 =>
        if p1 = [] then Except.error ParseNaiveArnError.MissingPartition
        else
          match rest1 with
          | [] => Except.error ParseNaiveArnError.NotEnoughElements
          | p2 :: rest2 =>
            if p2 = [] then Except.error ParseNaiveArnError.MissingService
            else
              match rest2 with
              | [] => Except.error ParseNaiveArnError.NotEnoughElements
              | p3 :: rest3 =>
                let region : Option (List Char) :=
                  if p3 = [] then none else some p3
                match rest3 with
                | [] => Except.error ParseNaiveArnError.NotEnoughElements
                | p4 :: rest4 =>
                  let account_id : Option (List Char) :=
                    if p4 = [] then none else some p4
                  match rest4 with
                  | [] => Except.error ParseNaiveArnError.NotEnoughElements
                  | p5 :: _ =>
                    if p5 = [] then
                      Except.error ParseNaiveArnError.MissingResource
                    else
                      Except.ok
                        { partition := p1, service := p2, region := region,
                          account_id := account_id, resource := p5 }

/-- `NaiveArn::parse` of `src/naive.rs`: split the input into at most
six colon-delimited pieces and consume them in order. -/
def parse (s : List Char) : Except ParseNaiveArnError NaiveArn :=
  parseParts (splitn 6 ':' s)

/-- Join a list of pieces back together with `sep` between consecutive
pieces (the inverse reading of `splitn`). -/
def joinSep (sep : Char) : List (List Char) → List Char
  | [] => []
  | [x] => x
  | x :: y :: xs => x ++ sep :: joinSep sep (y :: xs)

instance : DecidableEq (Except ParseNaiveArnError NaiveArn) := fun x y =>
  match x, y with
  | Except.error a, Except.error b =>
    if h : a = b then isTrue (by rw [h]) else isFalse (by intro hc; cases hc; exact h rfl)
  | Except.error _, Except.ok _ => isFalse (by intro hc; cases hc)
  | Except.ok _, Except.error _ => isFalse (by intro hc; cases hc)
  | Except.ok a, Except.ok b =>
    if h : a = b then isTrue (by rw [h]) else isFalse (by intro hc; cases hc; exact h rfl)

/-- The `Display` implementation of `src/naive.rs`:
`arn:{partition}:{service}:{region}:{account_id}:{resource}`, where an
absent optional field renders as the empty string
(`unwrap_or_default`). -/
def formatArn (a : NaiveArn) : List Char :=
  "arn".data ++ ':' :: a.partition ++ ':' :: a.service ++
    ':' :: a.region.getD [] ++ ':' :: a.account_id.getD [] ++
    ':' :: a.resource

/-! Basic facts about `splitFirst` and `splitn`. -/

theorem splitFirst_some_eq (sep : Char) :
    ∀ s l r : List Char, splitFirst sep s = some (l, r) → s = l ++ sep :: r := by
  intro s
  induction s with
  | nil => intro l r h; simp [splitFirst] at h
  | cons c cs ih =>
    intro l r h
    by_cases hc : c = sep
    · rw [splitFirst, if_pos hc] at h
      simp only [Option.some.injEq, Prod.mk.injEq] at h
      obtain ⟨hl, hr⟩ := h
      subst hl; subst hr
      simp [hc]
    · rw [splitFirst, if_neg hc] at h
      cases hrec : splitFirst sep cs with
      | none => rw [hrec] at h; simp at h
      | some p =>
        obtain ⟨l', r'⟩ := p
        rw [hrec] at h
        simp only [Option.some.injEq, Prod.mk.injEq] at h
        obtain ⟨hl, hr⟩ := h
        subst hl; subst hr
        simp [ih l' r' hrec]

theorem splitFirst_none_takeWhile (sep : Char) :
    ∀ s : List Char, splitFirst sep s = none →
      s.takeWhile (fun c => c != sep) = s := by
  intro s
  induction s with
  | nil => intro _; rfl
  | cons c cs ih =>
    intro h
    by_cases hc : c = sep
    · rw [splitFirst, if_pos hc] at h; simp at h
    · rw [splitFirst, if_neg hc] at h
      cases hrec : splitFirst sep cs with
      | none =>
        have hb : (c != sep) = true := bne_iff_ne.mpr hc
        simp [List.takeWhile, hb, ih hrec]
      | some p => obtain ⟨l', r'⟩ := p; rw [hrec] at h; simp at h

theorem splitFirst_some_takeWhile (sep : Char) :
    ∀ s l r : List Char, splitFirst sep s = some (l, r) →
      s.takeWhile (fun c => c != sep) = l := by
  intro s
  induction s with
  | nil => intro l r h; simp [splitFirst] at h
  | cons c cs ih =>
    intro l r h
    by_cases hc : c = sep
    · rw [splitFirst, if_pos hc] at h
      simp only [Option.some.injEq, Prod.mk.injEq] at h
      simp [List.takeWhile, hc, ← h.1]
    · rw [splitFirst, if_neg hc] at h
      cases hrec : splitFirst sep cs with
      | none => rw [hrec] at h; simp at h
      | some p =>
        obtain ⟨l', r'⟩ := p
        rw [hrec] at h
        simp only [Option.some.injEq, Prod.mk.injEq] at h
        have hb : (c != sep) = true := bne_iff_ne.mpr hc
        simp [List.takeWhile, hb, ih l' r' hrec, ← h.1]

theorem splitn_ne_nil (n : Nat) (sep : Char) (s : List Char) :
    splitn (n + 1) sep s ≠ [] := by
  cases n with
  | zero => simp [splitn]
  | succ m =>
    rw [splitn]
    cases splitFirst sep s with
    | none => simp
    | some p => obtain ⟨l, r⟩ := p; simp

theorem length_splitn_le (n : Nat) (sep : Char) :
    ∀ s : List Char, (splitn n sep s).length ≤ n := by
  induction n with
  | zero => intro s; simp [splitn]
  | succ m ih =>
    intro s
    cases m with
    | zero => simp [splitn]
    | succ k =>
      rw [splitn]
      cases hrec : splitFirst sep s with
      | none => simp
      | some p =>
        obtain ⟨l, r⟩ := p
        simpa using ih r

theorem joinSep_splitn (sep : Char) :
    ∀ (n : Nat) (s : List Char), joinSep sep (splitn (n + 1) sep s) = s := by
  intro n
  induction n with
  | zero => intro s; simp [splitn, joinSep]
  | succ m ih =>
    intro s
    rw [splitn]
    cases hrec : splitFirst sep s with
    | none => simp [joinSep]
    | some p =>
      obtain ⟨l, r⟩ := p
      show joinSep sep (l :: splitn (m + 1) sep r) = s
      cases hsp : splitn (m + 1) sep r with
      | nil => exact absurd hsp (splitn_ne_nil m sep r)
      | cons y ys =>
        have hjoin : joinSep sep (l :: y :: ys) = l ++ sep :: joinSep sep (y :: ys) := rfl
        rw [hjoin, ← hsp, ih r]
        exact (splitFirst_some_eq sep s l r hrec).symm

theorem splitn_head (n : Nat) (sep : Char) (s : List Char) :
    ∃ rest, splitn (n + 2) sep s = s.takeWhile (fun c => c != sep) :: rest := by
  rw [splitn]
  cases hrec : splitFirst sep s with
  | none => exact ⟨[], by rw [splitFirst_none_takeWhile sep s hrec]⟩
  | some p =>
    obtain ⟨l, r⟩ := p
    exact ⟨splitn (n + 1) sep r, by rw [splitFirst_some_takeWhile sep s l r hrec]⟩

/-! Inversion facts about the parser. -/

theorem parseParts_ok_inv (parts : List (List Char)) (a : NaiveArn)
    (h : parseParts parts = Except.ok a) :
    ∃ rest, parts = "arn".data :: a.partition :: a.service ::
        a.region.getD [] :: a.account_id.getD [] :: a.resource :: rest ∧
      a.partition ≠ [] ∧ a.service ≠ [] ∧ a.resource ≠ [] ∧
      a.region ≠ some [] ∧ a.account_id ≠ some [] := by
  rcases parts with _ | ⟨p0, _ | ⟨p1, _ | ⟨p2, _ | ⟨p3, _ | ⟨p4, _ | ⟨p5, rest⟩⟩⟩⟩⟩⟩
  case nil => simp [parseParts] at h
  case cons.nil => simp only [parseParts] at h; split_ifs at h
  case cons.cons.nil => simp only [parseParts] at h; split_ifs at h
  case cons.cons.cons.nil => simp only [parseParts] at h; split_ifs at h
  case cons.cons.cons.cons.nil => simp only [parseParts] at h; split_ifs at h
  case cons.cons.cons.cons.cons.nil => simp only [parseParts] at h; split_ifs at h
  simp only [parseParts] at h
  by_cases h0 : p0 = "arn".data
  swap
  · rw [if_pos h0] at h; simp at h
  rw [if_neg (not_not_intro h0)] at h
  by_cases h1 : p1 = []
  · rw [if_pos h1] at h; simp at h
  rw [if_neg h1] at h
  by_cases h2 : p2 = []
  · rw [if_pos h2] at h; simp at h
  rw [if_neg h2] at h
  by_cases h5 : p5 = []
  · rw [if_pos h5] at h; simp at h
  rw [if_neg h5] at h
  rw [Except.ok.injEq] at h
  subst h
  subst h0
  refine ⟨rest, ?_, h1, h2, h5, ?_, ?_⟩
  · have e3 : (if p3 = [] then (none : Option (List Char)) else some p3).getD [] = p3 := by
      by_cases hp3 : p3 = [] <;> simp [hp3]
    have e4 : (if p4 = [] then (none : Option (List Char)) else some p4).getD [] = p4 := by
      by_cases hp4 : p4 = [] <;> simp [hp4]
    simp [e3, e4]
  · by_cases hp3 : p3 = [] <;> simp [hp3]
  · by_cases hp4 : p4 = [] <;> simp [hp4]

theorem parse_ok_splitn (s : List Char) (a : NaiveArn)
    (h : parse s = Except.ok a) :
    splitn 6 ':' s = ["arn".data, a.partition, a.service,
        a.region.getD [], a.account_id.getD [], a.resource] ∧
      a.partition ≠ [] ∧ a.service ≠ [] ∧ a.resource ≠ [] ∧
      a.region ≠ some [] ∧ a.account_id ≠ some [] := by
  obtain ⟨rest, hparts, hconds⟩ := parseParts_ok_inv (splitn 6 ':' s) a h
  have hlen := length_splitn_le 6 ':' s
  rw [hparts] at hlen
  simp only [List.length_cons] at hlen
  have hnil : rest = [] := List.length_eq_zero.mp (by omega)
  subst hnil
  exact ⟨hparts, hconds⟩

theorem parse_formatArn (s : List Char) (a : NaiveArn)
    (h : parse s = Except.ok a) : formatArn a = s := by
  obtain ⟨hsplit, _⟩ := parse_ok_splitn s a h
  have hj := joinSep_splitn ':' 5 s
  rw [hsplit] at hj
  rw [← hj]
  simp [formatArn, joinSep, List.append_assoc]

theorem splitFirst_append (sep : Char) :
    ∀ l r : List Char, sep ∉ l → splitFirst sep (l ++ sep :: r) = some (l, r) := by
  intro l
  induction l with
  | nil => intro r _; simp [splitFirst]
  | cons c cs ih =>
    intro r hl
    have hc : ¬c = sep := fun hc => hl (by rw [← hc]; exact List.mem_cons_self c cs)
    rw [List.cons_append, splitFirst, if_neg hc,
      ih r (fun hm => hl (List.mem_cons_of_mem c hm))]

theorem splitn_append (n : Nat) (sep : Char) (l r : List Char) (hl : sep ∉ l) :
    splitn (n + 2) sep (l ++ sep :: r) = l :: splitn (n + 1) sep r := by
  rw [splitn, splitFirst_append sep l r hl]

theorem splitn_six_parts (x0 x1 x2 x3 x4 x5 : List Char)
    (h0 : ':' ∉ x0) (h1 : ':' ∉ x1) (h2 : ':' ∉ x2) (h3 : ':' ∉ x3) (h4 : ':' ∉ x4) :
    splitn 6 ':' (x0 ++ ':' :: (x1 ++ ':' :: (x2 ++ ':' :: (x3 ++ ':' ::
      (x4 ++ ':' :: x5))))) = [x0, x1, x2, x3, x4, x5] := by
  rw [show (6 : Nat) = 4 + 2 from rfl, splitn_append 4 ':' x0 _ h0,
    show (4 + 1 : Nat) = 3 + 2 from rfl, splitn_append 3 ':' x1 _ h1,
    show (3 + 1 : Nat) = 2 + 2 from rfl, splitn_append 2 ':' x2 _ h2,
    show (2 + 1 : Nat) = 1 + 2 from rfl, splitn_append 1 ':' x3 _ h3,
    show (1 + 1 : Nat) = 0 + 2 from rfl, splitn_append 0 ':' x4 _ h4]
  rfl

theorem formatArn_assoc (a : NaiveArn) :
    formatArn a = "arn".data ++ ':' :: (a.partition ++ ':' :: (a.service ++
      ':' :: (a.region.getD [] ++ ':' :: (a.account_id.getD [] ++
      ':' :: a.resource)))) := by
  simp [formatArn, List.append_assoc]

theorem parseParts_arn_ne_mp (rest : List (List Char)) :
    parseParts ("arn".data :: rest) ≠ Except.error ParseNaiveArnError.MissingPrefix := by
  rcases rest with _ | ⟨p1, _ | ⟨p2, _ | ⟨p3, _ | ⟨p4, _ | ⟨p5, rest⟩⟩⟩⟩⟩ <;>
    · simp only [parseParts]
      rw [if_neg (not_not_intro rfl)]
      try split_ifs
      all_goals simp

/-! The claims. -/

/-- C1: for every input string that parses successfully and whose region
and account_id segments were non-empty in the input (equivalently, both
optional fields of the result are `some`), formatting the parsed
identifier reproduces the input exactly. -/
theorem claim1_roundtrip_nonempty_optionals (s : List Char) (a : NaiveArn)
    (h : parse s = Except.ok a)
    (hreg : a.region.isSome = true) (hacc : a.account_id.isSome = true) :
    formatArn a = s :=
  parse_formatArn s a h

/-- Witness for C1 at the `ec2` example of the repository's tests. -/
theorem claim1_roundtrip_nonempty_optionals_witness :
    formatArn
      { partition := "aws".data, service := "ec2".data,
        region := some "us-east-1".data, account_id := some "123456789012".data,
        resource := "vpc/vpc-fd580e98".data } =
      "arn:aws:ec2:us-east-1:123456789012:vpc/vpc-fd580e98".data :=
  claim1_roundtrip_nonempty_optionals
    "arn:aws:ec2:us-east-1:123456789012:vpc/vpc-fd580e98".data
    { partition := "aws".data, service := "ec2".data,
      region := some "us-east-1".data, account_id := some "123456789012".data,
      resource := "vpc/vpc-fd580e98".data }
    (by decide) (by decide) (by decide)

/-- An Identifier built directly (never produced by `parse`): its
partition contains a colon, which the canonical text format cannot
protect. -/
def directColonArn : NaiveArn :=
  { partition := "a:b".data, service := "s".data, region := none,
    account_id := none, resource := "r".data }

/-- C2, counterexample: `directColonArn` satisfies the spec's data-model
constraints as stated (non-empty partition, service and resource, both
optional fields `none`, so the empty-vs-absent exception does not even
apply), yet formatting and re-parsing it does not return the identical
structure: `formatArn` yields `arn:a:b:s:::r`, which re-parses with
partition `a`, service `b`, region `some s` and resource `:r`. -/
theorem claim2_reparse_counterexample :
    (directColonArn.partition ≠ [] ∧ directColonArn.service ≠ [] ∧
      directColonArn.resource ≠ []) ∧
    parse (formatArn directColonArn) ≠ Except.ok directColonArn := by
  decide

/-- C2, amended: for every Identifier whose partition and service are
non-empty and colon-free, whose region and account_id values (when
present) are colon-free, and whose resource is non-empty, formatting and
re-parsing yields the identical structure except that a `some []`
(empty-string) optional field comes back as `none` — absence and empty
string are not distinguishable after re-serialization. -/
theorem claim2_reparse_amended (a : NaiveArn)
    (hpart : a.partition ≠ [] ∧ ':' ∉ a.partition)
    (hserv : a.service ≠ [] ∧ ':' ∉ a.service)
    (hreg : ∀ v, a.region = some v → ':' ∉ v)
    (hacc : ∀ v, a.account_id = some v → ':' ∉ v)
    (hres : a.resource ≠ []) :
    parse (formatArn a) = Except.ok
      { a with region := if a.region = some [] then none else a.region,
               account_id := if a.account_id = some [] then none else a.account_id } := by
  have hr : ':' ∉ a.region.getD [] := by
    cases hv : a.region with
    | none => simp
    | some v => simpa using hreg v hv
  have ha : ':' ∉ a.account_id.getD [] := by
    cases hv : a.account_id with
    | none => simp
    | some v => simpa using hacc v hv
  have harn : ':' ∉ "arn".data := by decide
  have hsp : splitn 6 ':' (formatArn a) =
      ["arn".data, a.partition, a.service, a.region.getD [],
        a.account_id.getD [], a.resource] := by
    rw [formatArn_assoc]
    exact splitn_six_parts "arn".data a.partition a.service (a.region.getD [])
      (a.account_id.getD []) a.resource harn hpart.2 hserv.2 hr ha
  unfold parse
  rw [hsp]
  simp only [parseParts]
  rw [if_neg (not_not_intro rfl), if_neg hpart.1, if_neg hserv.1, if_neg hres,
    Except.ok.injEq]
  have e3 : (if a.region.getD [] = [] then none else some (a.region.getD [])) =
      (if a.region = some [] then none else a.region) := by
    cases hv : a.region with
    | none => simp
    | some v => by_cases hveq : v = [] <;> simp [hveq]
  have e4 : (if a.account_id.getD [] = [] then none else some (a.account_id.getD [])) =
      (if a.account_id = some [] then none else a.account_id) := by
    cases hv : a.account_id with
    | none => simp
    | some v => by_cases hveq : v = [] <;> simp [hveq]
  rw [e3, e4]

/-- Witness for the amended C2, with a present region and an absent
account_id. -/
theorem claim2_reparse_amended_witness :
    parse (formatArn
      { partition := "aws".data, service := "apigateway".data,
        region := some "us-east-1".data, account_id := none,
        resource := "a1:/test/*".data }) = Except.ok
      { ({ partition := "aws".data, service := "apigateway".data,
           region := some "us-east-1".data, account_id := none,
           resource := "a1:/test/*".data } : NaiveArn) with
        region :=
          if (some "us-east-1".data : Option (List Char)) = some [] then none
          else some "us-east-1".data,
        account_id := if (none : Option (List Char)) = some [] then none else none } :=
  claim2_reparse_amended
    { partition := "aws".data, service := "apigateway".data,
      region := some "us-east-1".data, account_id := none,
      resource := "a1:/test/*".data }
    ⟨by decide, by decide⟩ ⟨by decide, by decide⟩
    (by intro v hv; injection hv with hv; rw [← hv]; decide)
    (by intro v hv; simp at hv)
    (by decide)

/-- C3: the parser discriminates the five malformed inputs of the spec
exactly as stated. -/
theorem claim3_error_discrimination :
    parse "".data = Except.error ParseNaiveArnError.MissingPrefix ∧
    parse "arn:".data = Except.error ParseNaiveArnError.MissingPartition ∧
    parse "arn:aws:a4b:us-east-1:123456789012".data =
      Except.error ParseNaiveArnError.NotEnoughElements ∧
    parse "arn::ec2:us-east-1:123456789012:vpc/vpc-fd580e98".data =
      Except.error ParseNaiveArnError.MissingPartition ∧
    parse "arn:aws:ec2:us-east-1:123456789012:".data =
      Except.error ParseNaiveArnError.MissingResource :=
  ⟨by decide, by decide, by decide, by decide, by decide⟩

/-- C4: the splitter produces at most six parts and loses no text (the
sixth part absorbs every remaining character, further colons included);
on the spec's logs example the resource field keeps all its colons. -/
theorem claim4_bounded_split :
    (∀ s : List Char, (splitn 6 ':' s).length ≤ 6 ∧
      joinSep ':' (splitn 6 ':' s) = s) ∧
    parse "arn:aws:logs:us-east-1:123456789012:log-group:my-log-group*:log-stream:my-log-stream*".data =
      Except.ok
        { partition := "aws".data, service := "logs".data,
          region := some "us-east-1".data, account_id := some "123456789012".data,
          resource := "log-group:my-log-group*:log-stream:my-log-stream*".data } :=
  ⟨fun s => ⟨length_splitn_le 6 ':' s, joinSep_splitn ':' 5 s⟩, by decide⟩

/-- C5: for the fourth and fifth colon-delimited parts, an absent part
fails with `NotEnoughElements`, an empty part binds the field to `none`,
a non-empty part binds it to `some`; on `arn:aws:s3:::my_corporate_bucket`
both fields are `none` and re-serialization reproduces the string. -/
theorem claim5_optional_field_rules :
    (∀ (s p0 p1 p2 : List Char) (rest : List (List Char)),
        splitn 6 ':' s = p0 :: p1 :: p2 :: rest →
        p0 = "arn".data → p1 ≠ [] → p2 ≠ [] →
        ((rest = [] → parse s = Except.error ParseNaiveArnError.NotEnoughElements) ∧
          ∀ p3 rest2, rest = p3 :: rest2 →
            ((rest2 = [] → parse s = Except.error ParseNaiveArnError.NotEnoughElements) ∧
              ∀ p4 rest3 a, rest2 = p4 :: rest3 → parse s = Except.ok a →
                a.region = (if p3 = [] then none else some p3) ∧
                a.account_id = (if p4 = [] then none else some p4)))) ∧
    parse "arn:aws:s3:::my_corporate_bucket".data =
      Except.ok
        { partition := "aws".data, service := "s3".data, region := none,
          account_id := none, resource := "my_corporate_bucket".data } ∧
    formatArn
      { partition := "aws".data, service := "s3".data, region := none,
        account_id := none, resource := "my_corporate_bucket".data } =
      "arn:aws:s3:::my_corporate_bucket".data := by
  refine ⟨?_, by decide, by decide⟩
  intro s p0 p1 p2 rest hsplit h0 h1 h2
  have hp : parse s = parseParts (p0 :: p1 :: p2 :: rest) := by
    unfold parse; rw [hsplit]
  subst h0
  constructor
  · intro hrest; subst hrest
    rw [hp]
    simp only [parseParts]
    rw [if_neg (not_not_intro rfl), if_neg h1, if_neg h2]
  · intro p3 rest2 hrest; subst hrest
    constructor
    · intro hrest2; subst hrest2
      rw [hp]
      simp only [parseParts]
      rw [if_neg (not_not_intro rfl), if_neg h1, if_neg h2]
    · intro p4 rest3 a hrest2 hok; subst hrest2
      rw [hp] at hok
      rcases rest3 with _ | ⟨p5, rest4⟩
      · simp only [parseParts] at hok
        rw [if_neg (not_not_intro rfl), if_neg h1, if_neg h2] at hok
        simp at hok
      · simp only [parseParts] at hok
        rw [if_neg (not_not_intro rfl), if_neg h1, if_neg h2] at hok
        by_cases h5 : p5 = []
        · rw [if_pos h5] at hok; simp at hok
        · rw [if_neg h5, Except.ok.injEq] at hok
          subst hok
          exact ⟨rfl, rfl⟩

/-- C6: the parser returns `MissingPrefix` exactly for the inputs whose
first colon-delimited part (the text before the first colon, or the
whole input when it has no colon — in particular the empty input) is not
the literal `arn`. -/
theorem claim6_first_part_iff (s : List Char) :
    parse s = Except.error ParseNaiveArnError.MissingPrefix ↔
      s.takeWhile (fun c => c != ':') ≠ "arn".data := by
  obtain ⟨rest, hsplit⟩ := splitn_head 4 ':' s
  have hsplit6 : splitn 6 ':' s = s.takeWhile (fun c => c != ':') :: rest := hsplit
  unfold parse
  rw [hsplit6]
  by_cases harn : s.takeWhile (fun c => c != ':') = "arn".data
  · rw [harn]
    simp [parseParts_arn_ne_mp rest]
  · simp only [parseParts]
    rw [if_pos harn]
    simp [harn]

/-- C7: every successfully parsed identifier has a non-empty partition,
service and resource, and its optional region and account_id are never
`some` of the empty string. -/
theorem claim7_parsed_invariants (s : List Char) (a : NaiveArn)
    (h : parse s = Except.ok a) :
    a.partition ≠ [] ∧ a.service ≠ [] ∧ a.resource ≠ [] ∧
      a.region ≠ some [] ∧ a.account_id ≠ some [] :=
  (parse_ok_splitn s a h).2

/-- The parse of the repository's `sns` wildcard-region test input. -/
def snsArn : NaiveArn :=
  { partition := "aws".data, service := "sns".data, region := some "*".data,
    account_id := some "123456789012".data, resource := "my_corporate_topic".data }

/-- Witness for C7 at the `sns` example of the repository's tests. -/
theorem claim7_parsed_invariants_witness :
    snsArn.partition ≠ [] ∧ snsArn.service ≠ [] ∧ snsArn.resource ≠ [] ∧
      snsArn.region ≠ some [] ∧ snsArn.account_id ≠ some [] :=
  claim7_parsed_invariants "arn:aws:sns:*:123456789012:my_corporate_topic".data
    snsArn (by decide)

/-- C8: the parser is total — on every input it returns either a parsed
identifier or exactly one of the five enumerated error values (the
embedding is a total function, so termination is by construction). -/
theorem claim8_parse_total (s : List Char) :
    (∃ a, parse s = Except.ok a) ∨
      parse s = Except.error ParseNaiveArnError.NotEnoughElements ∨
      parse s = Except.error ParseNaiveArnError.MissingPrefix ∨
      parse s = Except.error ParseNaiveArnError.MissingPartition ∨
      parse s = Except.error ParseNaiveArnError.MissingService ∨
      parse s = Except.error ParseNaiveArnError.MissingResource := by
  cases parse s with
  | ok a => exact Or.inl ⟨a, rfl⟩
  | error e => cases e <;> simp

/-- C9: the formatter cannot distinguish `region = some ""` from
`region = none` (and likewise for `account_id`): on identifiers agreeing
on all other fields it produces identical output. -/
theorem claim9_empty_vs_absent_format (p sv res : List Char)
    (rg acc : Option (List Char)) :
    formatArn
        { partition := p, service := sv, region := some [],
          account_id := acc, resource := res } =
      formatArn
        { partition := p, service := sv, region := none,
          account_id := acc, resource := res } ∧
    formatArn
        { partition := p, service := sv, region := rg,
          account_id := some [], resource := res } =
      formatArn
        { partition := p, service := sv, region := rg,
          account_id := none, resource := res } :=
  ⟨rfl, rfl⟩

/-- C10: the round-trip holds for every successful parse, with no
exception needed for empty optional segments — `formatArn` reproduces
the input exactly whenever `parse` succeeds. -/
theorem claim10_roundtrip_all (s : List Char) (a : NaiveArn)
    (h : parse s = Except.ok a) : formatArn a = s :=
  parse_formatArn s a h

/-- Witness for C10 at an input whose optional segments are empty. -/
theorem claim10_roundtrip_all_witness :
    formatArn
      { partition := "aws".data, service := "s3".data, region := none,
        account_id := none, resource := "my_corporate_bucket/*".data } =
      "arn:aws:s3:::my_corporate_bucket/*".data :=
  claim10_roundtrip_all "arn:aws:s3:::my_corporate_bucket/*".data
    { partition := "aws".data, service := "s3".data, region := none,
      account_id := none, resource := "my_corporate_bucket/*".data }
    (by decide)

end Arn
